import Mathlib

/-!
Verification of the authentication core of PackingWebsite
(src/lib/auth_manager.py) against its natural-language specification.

The SQLite-backed state of the module is embedded as an explicit record
`DB` holding the three relations created by `init_db` (store_auth,
sessions, audit_log).  Each library function becomes a Lean function on
`DB`; the ambient wall clock (SQLite CURRENT_TIMESTAMP / Python
datetime.now()) is passed explicitly as a `Nat` parameter `now`, and the
external randomness (bcrypt.gensalt(), secrets.token_urlsafe,
xkcdpass-generated passphrases) is passed as explicit parameters.
-/

namespace PackingAuth

/-- Abstract model of a bcrypt hash as produced by
`bcrypt.hashpw(pw, bcrypt.gensalt())`: a salted hash is determined by the
hashed text and the salt, and `bcrypt.checkpw` succeeds exactly on the
text that was hashed (the library contract; collisions are ignored). -/
structure BcryptHash where
  pw : String
  salt : Nat
deriving DecidableEq

/-- `bcrypt.hashpw(password, salt)`. -/
def hashpw (password : String) (salt : Nat) : BcryptHash := ⟨password, salt⟩

/-- `bcrypt.checkpw(password, hash)`: true iff `password` is the text that
was hashed. -/
def checkpw (password : String) (h : BcryptHash) : Bool := password == h.pw

/-- A row of the `store_auth` table (auth_manager.py, init_db). -/
structure StoreCredential where
  store_id : String
  password_hash : BcryptHash
  created_at : Nat
  updated_at : Nat
deriving DecidableEq

/-- A row of the `sessions` table (auth_manager.py, init_db). -/
structure Session where
  token : String
  store_id : String
  expires_at : Nat
  created_at : Nat
deriving DecidableEq

/-- A row of the `audit_log` table (auth_manager.py, init_db).  The only
`details` payload the module ever writes is
`json.dumps({"success": is_valid})` in `verify_store_password`, so the
payload is modelled as the boolean it carries (`none` = SQL NULL). -/
structure AuditEntry where
  id : Nat
  store_id : String
  action : String
  timestamp : Nat
  details : Option Bool
deriving DecidableEq

/-- The whole database state: the three relations plus the AUTOINCREMENT
counter of `audit_log.id` (SQLite assigns `next_audit_id` to the next
inserted row; the counter starts at 1). -/
structure DB where
  store_auth : List StoreCredential
  sessions : List Session
  audit_log : List AuditEntry
  next_audit_id : Nat
deriving DecidableEq

/-- `init_db()`: fresh database, all three tables empty. -/
def init_db : DB :=
  { store_auth := [], sessions := [], audit_log := [], next_audit_id := 1 }

/-- `INSERT INTO audit_log (store_id, action, details) VALUES (?, ?, ?)`:
the row receives the AUTOINCREMENT id and the current timestamp. -/
def insert_audit (now : Nat) (store_id action : String) (details : Option Bool)
    (db : DB) : DB :=
  { db with
    audit_log := db.audit_log ++ [⟨db.next_audit_id, store_id, action, now, details⟩],
    next_audit_id := db.next_audit_id + 1 }

/-- `normalize_password`: lowercase, then keep only characters a-z
(`''.join(c for c in password.lower() if 'a' <= c <= 'z')`). -/
def normalize_password (password : String) : String :=
  String.mk ((password.data.map Char.toLower).filter
    (fun c => decide ('a' ≤ c) && decide (c ≤ 'z')))

/-- `create_store_auth(store_id, password=None)`.  `password?` is the
optional caller-supplied secret, `generated` the passphrase that
`generate_passphrase()` would return (external randomness), `salt` the
salt from `bcrypt.gensalt()`.  Returns the password used and the new
state. -/
def create_store_auth (now : Nat) (store_id : String) (password? : Option String)
    (generated : String) (salt : Nat) (db : DB) : String × DB :=
  let password := password?.getD generated
  let normalized := normalize_password password
  let password_hash := hashpw normalized salt
  let existing := db.store_auth.any (fun r => r.store_id == store_id)
  let db1 :=
    if existing then
      { db with store_auth := db.store_auth.map (fun r =>
          if r.store_id == store_id then
            { r with password_hash := password_hash, updated_at := now }
          else r) }
    else
      { db with store_auth := db.store_auth ++ [⟨store_id, password_hash, now, now⟩] }
  let action := if existing then "password_updated" else "store_created"
  (password, insert_audit now store_id action none db1)

/-- `verify_store_password(store_id, password)`.  Looks up the hash; when
no row exists it returns False immediately (before any audit write);
otherwise it checks the normalized password against the hash and logs a
`login_attempt` row carrying the success flag. -/
def verify_store_password (now : Nat) (store_id password : String) (db : DB) :
    Bool × DB :=
  match db.store_auth.find? (fun r => r.store_id == store_id) with
  | none => (false, db)
  | some r =>
    let normalized := normalize_password password
    let is_valid := checkpw normalized r.password_hash
    (is_valid, insert_audit now store_id "login_attempt" (some is_valid) db)

/-- `create_session(store_id, hours=24)`.  `token` is the value of
`secrets.token_urlsafe(32)` (external randomness); the expiry is
`now + timedelta(hours=hours)`, with time measured in seconds.  First
`DELETE FROM sessions WHERE expires_at < CURRENT_TIMESTAMP`, then insert
the new row, then log `session_created`. -/
def create_session (now : Nat) (store_id : String) (hours : Nat) (token : String)
    (db : DB) : String × DB :=
  let expires_at := now + hours * 3600
  let swept := db.sessions.filter (fun s => !decide (s.expires_at < now))
  let db1 := { db with sessions := swept ++ [⟨token, store_id, expires_at, now⟩] }
  (token, insert_audit now store_id "session_created" none db1)

/-- `verify_session(token)`: `SELECT store_id FROM sessions WHERE
token = ? AND expires_at > CURRENT_TIMESTAMP`.  Read-only, so the state
comes back unchanged. -/
def verify_session (now : Nat) (token : String) (db : DB) : Option String × DB :=
  match db.sessions.find? (fun s => s.token == token && decide (now < s.expires_at)) with
  | some s => (some s.store_id, db)
  | none => (none, db)

/-- `delete_session(token)`: look the token up (with no expiry condition);
if a row exists, delete it and log `logout` under its store_id, otherwise
do nothing. -/
def delete_session (now : Nat) (token : String) (db : DB) : DB :=
  match db.sessions.find? (fun s => s.token == token) with
  | none => db
  | some s =>
    let db1 := { db with sessions := db.sessions.filter (fun x => x.token != token) }
    insert_audit now s.store_id "logout" none db1

/-- `hasAuth(store_id)`: pure existence check, no writes. -/
def hasAuth (store_id : String) (db : DB) : Bool × DB :=
  (db.store_auth.any (fun r => r.store_id == store_id), db)

/-- Insertion step of `ORDER BY store_id` (ascending). -/
def insert_by_store (x : String × Nat × Nat) :
    List (String × Nat × Nat) → List (String × Nat × Nat)
  | [] => [x]
  | y :: ys => if x.1 ≤ y.1 then x :: y :: ys else y :: insert_by_store x ys

/-- Sort rows ascending by store_id, modelling `ORDER BY store_id`. -/
def sort_by_store : List (String × Nat × Nat) → List (String × Nat × Nat)
  | [] => []
  | x :: xs => insert_by_store x (sort_by_store xs)

/-- `list_stores()`: store_id / created_at / updated_at of every
credential row, ordered by store_id.  Read-only. -/
def list_stores (db : DB) : List (String × Nat × Nat) × DB :=
  (sort_by_store (db.store_auth.map (fun r => (r.store_id, r.created_at, r.updated_at))), db)

/-- Insertion step of `ORDER BY timestamp DESC`. -/
def insert_by_time_desc (x : AuditEntry) : List AuditEntry → List AuditEntry
  | [] => [x]
  | y :: ys => if y.timestamp ≤ x.timestamp then x :: y :: ys else y :: insert_by_time_desc x ys

/-- Sort audit rows descending by timestamp, modelling
`ORDER BY timestamp DESC`. -/
def sort_by_time_desc : List AuditEntry → List AuditEntry
  | [] => []
  | x :: xs => insert_by_time_desc x (sort_by_time_desc xs)

/-- `get_audit_log(store_id=None, limit=100)`: optionally filter to one
store, order by timestamp descending, cap at `limit`.  Read-only. -/
def get_audit_log (store_id? : Option String) (limit : Nat) (db : DB) :
    List AuditEntry × DB :=
  let filtered := match store_id? with
    | some sid => db.audit_log.filter (fun e => e.store_id == sid)
    | none => db.audit_log
  ((sort_by_time_desc filtered).take limit, db)

/-- One call into the core, together with the wall-clock instant at which
it runs and the external randomness it consumes. -/
inductive Op where
  | createAuth (now : Nat) (store_id : String) (password? : Option String)
      (generated : String) (salt : Nat)
  | verifyPw (now : Nat) (store_id password : String)
  | createSess (now : Nat) (store_id : String) (hours : Nat) (token : String)
  | verifySess (now : Nat) (token : String)
  | deleteSess (now : Nat) (token : String)
  | hasAuthQ (now : Nat) (store_id : String)
  | listStoresQ (now : Nat)
  | getAuditQ (now : Nat) (store_id? : Option String) (limit : Nat)
deriving DecidableEq

/-- The clock instant at which an operation runs. -/
def Op.time : Op → Nat
  | .createAuth now _ _ _ _ => now
  | .verifyPw now _ _ => now
  | .createSess now _ _ _ => now
  | .verifySess now _ => now
  | .deleteSess now _ => now
  | .hasAuthQ now _ => now
  | .listStoresQ now => now
  | .getAuditQ now _ _ => now

/-- State effect of one operation of the core. -/
def step (op : Op) (db : DB) : DB :=
  match op with
  | .createAuth now sid pw? gen salt => (create_store_auth now sid pw? gen salt db).2
  | .verifyPw now sid pw => (verify_store_password now sid pw db).2
  | .createSess now sid hours tok => (create_session now sid hours tok db).2
  | .verifySess now tok => (verify_session now tok db).2
  | .deleteSess now tok => delete_session now tok db
  | .hasAuthQ _ sid => (hasAuth sid db).2
  | .listStoresQ _ => (list_stores db).2
  | .getAuditQ _ sid? limit => (get_audit_log sid? limit db).2

/-- Run a sequence of operations from a starting state. -/
def run (ops : List Op) (db : DB) : DB := ops.foldl (fun d op => step op d) db

/-- `Bool`-level test of whether an operation is a `create_session` call
that would insert the given token. -/
def issues_token (op : Op) (token : String) : Bool :=
  match op with
  | .createSess _ _ _ tok => tok == token
  | _ => false

/-- The clocks of a sequence of calls are non-decreasing, starting from
`t` (a single caller's timeline). -/
def ClockMono (t : Nat) (ops : List Op) : Prop :=
  List.Chain (fun a b => a ≤ b) t (ops.map Op.time)

/-- The clock after running the sequence (the last call's instant, or `t`
for the empty sequence). -/
def lastClock (t : Nat) (ops : List Op) : Nat :=
  ops.foldl (fun _ op => Op.time op) t

/-- Audit-log id discipline: ids strictly increase along the log and all
sit below the AUTOINCREMENT counter. -/
def AuditIdsOk (db : DB) : Prop :=
  List.Sorted (fun a b => a < b) (db.audit_log.map AuditEntry.id)
  ∧ ∀ e ∈ db.audit_log, e.id < db.next_audit_id

/-- Audit-log timestamp discipline relative to a current clock `t`:
timestamps are non-decreasing along the log and all are at most `t`. -/
def TimesOk (db : DB) (t : Nat) : Prop :=
  List.Sorted (fun a b => a ≤ b) (db.audit_log.map AuditEntry.timestamp)
  ∧ ∀ e ∈ db.audit_log, e.timestamp ≤ t

/-- No session row carries the given token. -/
def NoToken (token : String) (db : DB) : Prop :=
  ∀ s ∈ db.sessions, s.token ≠ token

/-- Concrete fixture: one store credential for "s1" whose stored hash is
the bcrypt hash of the normalized secret "secret". -/
def db_one : DB :=
  { store_auth := [⟨"s1", hashpw "secret" 0, 0, 0⟩],
    sessions := [], audit_log := [], next_audit_id := 1 }

/-- Concrete fixture: one session row for token "tok1" that expired at
time 5 (so it is already expired at any time after 5). -/
def db_exp : DB :=
  { store_auth := [], sessions := [⟨"tok1", "s1", 5, 0⟩],
    audit_log := [], next_audit_id := 1 }

/-- Concrete fixture: two session rows of different tenants, one live at
time 10 (expires 100) and one already expired at time 10 (expires 2). -/
def db_mix : DB :=
  { store_auth := [], sessions := [⟨"a", "s1", 100, 0⟩, ⟨"b", "s2", 2, 0⟩],
    audit_log := [], next_audit_id := 1 }

/-- C5: `normalize_password` keeps only characters a-z, never lengthens
the input, returns a subsequence of the lowercased input, and maps the
spec's examples to "happytigerblue". -/
theorem normalize_password_spec (s : String) :
    (∀ c ∈ (normalize_password s).data, 'a' ≤ c ∧ c ≤ 'z')
    ∧ (normalize_password s).length ≤ s.length
    ∧ List.Sublist (normalize_password s).data (s.data.map Char.toLower)
    ∧ normalize_password "Happy-Tiger-Blue" = "happytigerblue"
    ∧ normalize_password "happy tiger blue" = "happytigerblue" := by
  refine ⟨?_, ?_, ?_, by decide, by decide⟩
  · intro c hc
    simp only [normalize_password, List.mem_filter] at hc
    have h2 := hc.2
    simp only [Bool.and_eq_true, decide_eq_true_eq] at h2
    exact h2
  · have h1 : (normalize_password s).length = ((s.data.map Char.toLower).filter
        (fun c => decide ('a' ≤ c) && decide (c ≤ 'z'))).length := rfl
    rw [h1]
    calc ((s.data.map Char.toLower).filter
        (fun c => decide ('a' ≤ c) && decide (c ≤ 'z'))).length
        ≤ (s.data.map Char.toLower).length := List.length_filter_le _ _
      _ = s.data.length := by simp
      _ = s.length := rfl
  · exact List.filter_sublist _

/-- C5 witness: the letter h survives normalization of the spec's example
and is indeed in a-z. -/
theorem normalize_password_spec_w : 'a' ≤ 'h' ∧ 'h' ≤ 'z' :=
  (normalize_password_spec "Happy-Tiger-Blue").1 'h' (by decide)

/-- C3: `verify_store_password` returns the boolean false — it is a total
function into `Bool × DB`, so no exception is possible — both when no
credential row exists for the store and when the supplied secret does not
match the stored hash; the two negative outcomes share the return shape
`(false, _)`. -/
theorem verify_negative_false (now : Nat) (sid pw : String) (db : DB) :
    ((∀ r ∈ db.store_auth, r.store_id ≠ sid) →
      verify_store_password now sid pw db = (false, db))
    ∧ (∀ r, db.store_auth.find? (fun x => x.store_id == sid) = some r →
        checkpw (normalize_password pw) r.password_hash = false →
        (verify_store_password now sid pw db).1 = false) := by
  constructor
  · intro h
    have hfind : db.store_auth.find? (fun r => r.store_id == sid) = none := by
      rw [List.find?_eq_none]
      intro r hr
      simp only [beq_iff_eq]
      exact h r hr
    simp [verify_store_password, hfind]
  · intro r hr hchk
    simp [verify_store_password, hr, hchk]

/-- C3 witness: on the fixture with only store "s1", verifying an unknown
store "s9" and verifying "s1" with a wrong secret both return false. -/
theorem verify_negative_false_w :
    verify_store_password 1 "s9" "pw" db_one = (false, db_one)
    ∧ (verify_store_password 1 "s1" "wrong" db_one).1 = false :=
  ⟨(verify_negative_false 1 "s9" "pw" db_one).1 (by decide),
   (verify_negative_false 1 "s1" "wrong" db_one).2 ⟨"s1", hashpw "secret" 0, 0, 0⟩
     (by decide) (by decide)⟩

/-- C1 counterexample: a verification attempt against a store that has no
credential row writes nothing to the audit log (the function returns
before the `login_attempt` insert), refuting the claim that every verify
call appends an audit entry. -/
theorem verify_unknown_no_audit_entry :
    (verify_store_password 7 "s9" "pw" init_db).2.audit_log = []
    ∧ (verify_store_password 7 "s9" "pw" init_db).1 = false := by decide

/-- C1 amended: `verify_store_password` appends a `login_attempt`
AuditEntry carrying the boolean success flag exactly when a credential
row exists for the store; when no row exists it returns without touching
the audit log. -/
theorem verify_audit_spec (now : Nat) (sid pw : String) (db : DB) :
    ((∀ r ∈ db.store_auth, r.store_id ≠ sid) →
      (verify_store_password now sid pw db).2.audit_log = db.audit_log)
    ∧ (∀ r, db.store_auth.find? (fun x => x.store_id == sid) = some r →
      (verify_store_password now sid pw db).2.audit_log
        = db.audit_log ++ [⟨db.next_audit_id, sid, "login_attempt", now,
            some (checkpw (normalize_password pw) r.password_hash)⟩]) := by
  constructor
  · intro h
    have hfind : db.store_auth.find? (fun r => r.store_id == sid) = none := by
      rw [List.find?_eq_none]
      intro r hr
      simp only [beq_iff_eq]
      exact h r hr
    simp [verify_store_password, hfind]
  · intro r hr
    simp [verify_store_password, hr, insert_audit]

/-- C1 witness: on the fixture, an unknown-store verify leaves the audit
log empty, and a known-store verify appends the `login_attempt` row with
its success flag. -/
theorem verify_audit_spec_w :
    (verify_store_password 1 "s9" "pw" db_one).2.audit_log = db_one.audit_log
    ∧ (verify_store_password 1 "s1" "secret" db_one).2.audit_log
        = db_one.audit_log ++ [⟨1, "s1", "login_attempt", 1,
            some (checkpw (normalize_password "secret") (hashpw "secret" 0))⟩] :=
  ⟨(verify_audit_spec 1 "s9" "pw" db_one).1 (by decide),
   (verify_audit_spec 1 "s1" "secret" db_one).2 ⟨"s1", hashpw "secret" 0, 0, 0⟩
     (by decide)⟩

/-- C2 counterexample: token "tok1" names a session that expired at time
5; revoking it at time 10 is not a no-op — the row is deleted and a
logout AuditEntry is appended — refuting the claim that revoking an
already-expired token changes nothing. -/
theorem delete_expired_session_not_noop :
    (delete_session 10 "tok1" db_exp).sessions = []
    ∧ (delete_session 10 "tok1" db_exp).audit_log = [⟨1, "s1", "logout", 10, none⟩] := by
  decide

/-- C2 amended: revoking a token with no matching session row (unknown,
or expired and already swept) is a no-op — no error, no deletion, no
audit write; revoking a token whose row is present — whether live or
expired, since `delete_session` never consults `expires_at` — deletes the
row and appends a logout AuditEntry scoped to that session's store_id. -/
theorem delete_session_spec (now : Nat) (token : String) (db : DB) :
    ((∀ s ∈ db.sessions, s.token ≠ token) → delete_session now token db = db)
    ∧ (∀ s, db.sessions.find? (fun x => x.token == token) = some s →
        (∀ x ∈ (delete_session now token db).sessions, x.token ≠ token)
        ∧ (delete_session now token db).audit_log
            = db.audit_log ++ [⟨db.next_audit_id, s.store_id, "logout", now, none⟩]
        ∧ (delete_session now token db).store_auth = db.store_auth) := by
  constructor
  · intro h
    have hfind : db.sessions.find? (fun s => s.token == token) = none := by
      rw [List.find?_eq_none]
      intro s hs
      simp only [beq_iff_eq]
      exact h s hs
    simp [delete_session, hfind]
  · intro s hs
    refine ⟨?_, ?_, ?_⟩
    · intro x hx
      simp only [delete_session, hs, insert_audit] at hx
      have := (List.mem_filter.1 hx).2
      simpa using this
    · simp [delete_session, hs, insert_audit]
    · simp [delete_session, hs, insert_audit]

/-- C2 witness: revoking the never-issued token "nope" leaves the fixture
unchanged, and revoking the present (expired) token "tok1" removes every
"tok1" row and appends the logout entry. -/
theorem delete_session_spec_w :
    delete_session 3 "nope" db_exp = db_exp
    ∧ ((∀ x ∈ (delete_session 10 "tok1" db_exp).sessions, x.token ≠ "tok1")
       ∧ (delete_session 10 "tok1" db_exp).audit_log
           = db_exp.audit_log ++ [⟨1, "s1", "logout", 10, none⟩]
       ∧ (delete_session 10 "tok1" db_exp).store_auth = db_exp.store_auth) :=
  ⟨(delete_session_spec 3 "nope" db_exp).1 (by decide),
   (delete_session_spec 10 "tok1" db_exp).2 ⟨"tok1", "s1", 5, 0⟩ (by decide)⟩

/-- After `create_store_auth`, the credential row found for the store
carries the bcrypt hash of the normalized password that was used (both in
the update branch and in the insert branch). -/
lemma find?_after_create (now : Nat) (sid : String) (pw? : Option String)
    (generated : String) (salt : Nat) (db : DB) :
    ((create_store_auth now sid pw? generated salt db).2.store_auth.find?
        (fun r => r.store_id == sid)).map StoreCredential.password_hash
      = some (hashpw (normalize_password (pw?.getD generated)) salt) := by
  by_cases hex : db.store_auth.any (fun r => r.store_id == sid)
  · simp only [create_store_auth, insert_audit, hex, if_true]
    rw [List.find?_map]
    have hpf : ((fun r : StoreCredential => r.store_id == sid) ∘ (fun r =>
        if r.store_id == sid then
          { r with password_hash := hashpw (normalize_password (pw?.getD generated)) salt,
                   updated_at := now }
        else r)) = fun r => r.store_id == sid := by
      funext r
      by_cases h : r.store_id = sid
      · simp [h]
      · simp [h]
    rw [hpf]
    have hsome : (db.store_auth.find? (fun r => r.store_id == sid)).isSome := by
      rw [List.find?_isSome]
      exact List.any_eq_true.1 hex
    obtain ⟨r0, hr0⟩ := Option.isSome_iff_exists.1 hsome
    have hp0 := List.find?_some hr0
    have hp1 : r0.store_id = sid := by simpa using hp0
    rw [hr0]
    simp [hp1]
  · have hex2 : db.store_auth.any (fun r => r.store_id == sid) = false := by
      simpa using hex
    have hnone : db.store_auth.find? (fun r => r.store_id == sid) = none := by
      rw [List.find?_eq_none]
      exact List.any_eq_false.1 hex2
    simp only [create_store_auth, insert_audit, hex2, Bool.false_eq_true, if_false]
    rw [List.find?_append, hnone]
    simp

/-- C4: the password returned by `create_store_auth` (supplied or
generated) verifies, because creation hashes exactly the normalized form
that verification checks. -/
theorem create_then_verify (now now2 : Nat) (sid : String) (pw? : Option String)
    (generated : String) (salt : Nat) (db : DB) :
    (verify_store_password now2 sid
        (create_store_auth now sid pw? generated salt db).1
        (create_store_auth now sid pw? generated salt db).2).1 = true := by
  have hfind := find?_after_create now sid pw? generated salt db
  obtain ⟨r, hr, hph⟩ : ∃ r,
      (create_store_auth now sid pw? generated salt db).2.store_auth.find?
        (fun x => x.store_id == sid) = some r
      ∧ r.password_hash = hashpw (normalize_password (pw?.getD generated)) salt := by
    cases hf : (create_store_auth now sid pw? generated salt db).2.store_auth.find?
        (fun x => x.store_id == sid) with
    | none => rw [hf] at hfind; simp at hfind
    | some r =>
      rw [hf] at hfind
      simp only [Option.map_some'] at hfind
      exact ⟨r, rfl, by injection hfind⟩
  have hret : (create_store_auth now sid pw? generated salt db).1 = pw?.getD generated := rfl
  rw [hret]
  simp [verify_store_password, hr, checkpw, hph, hashpw]

/-- C10: any two inputs with the same normalization are interchangeable
as the credential — after registering with `p`, verification succeeds
with every `q` normalizing to the same string (letter-free secrets all
normalize to "" and are mutually accepted). -/
theorem normalize_equal_verify (now now2 : Nat) (sid p q generated : String)
    (salt : Nat) (db : DB) (h : normalize_password p = normalize_password q) :
    (verify_store_password now2 sid q
        (create_store_auth now sid (some p) generated salt db).2).1 = true := by
  have hfind := find?_after_create now sid (some p) generated salt db
  obtain ⟨r, hr, hph⟩ : ∃ r,
      (create_store_auth now sid (some p) generated salt db).2.store_auth.find?
        (fun x => x.store_id == sid) = some r
      ∧ r.password_hash = hashpw (normalize_password p) salt := by
    cases hf : (create_store_auth now sid (some p) generated salt db).2.store_auth.find?
        (fun x => x.store_id == sid) with
    | none => rw [hf] at hfind; simp at hfind
    | some r =>
      rw [hf] at hfind
      simp only [Option.map_some'] at hfind
      exact ⟨r, rfl, by injection hfind⟩
  simp [verify_store_password, hr, checkpw, hph, hashpw, ← h]

/-- C10 witness: "1234" and "???" both normalize to the empty string, so
after registering store "s2" with secret "1234", the letter-free input
"???" verifies. -/
theorem normalize_equal_verify_w :
    normalize_password "1234" = normalize_password "???"
    ∧ (verify_store_password 1 "s2" "???"
        (create_store_auth 0 "s2" (some "1234") "gen" 7 init_db).2).1 = true :=
  ⟨by decide, normalize_equal_verify 0 1 "s2" "1234" "???" "gen" 7 init_db (by decide)⟩

/-- C6: `verify_session` is read-only (it returns the state unchanged —
so it can never extend an expiry), returns none exactly when no session
row with the token is unexpired, returns a store_id only from a matching
unexpired row, a token validated immediately after `create_session` with
a positive ttl yields that store_id, and once the clock reaches the
expiry the same token yields none. -/
theorem verify_session_spec (now now2 : Nat) (token : String) (db : DB)
    (sid : String) (hours : Nat) :
    ((verify_session now token db).2 = db)
    ∧ ((verify_session now token db).1 = none ↔
        ∀ s ∈ db.sessions, s.token = token → s.expires_at ≤ now)
    ∧ (∀ sid2, (verify_session now token db).1 = some sid2 →
        ∃ s ∈ db.sessions, s.token = token ∧ now < s.expires_at ∧ s.store_id = sid2)
    ∧ ((∀ s ∈ db.sessions, s.token ≠ token) → 0 < hours →
        (verify_session now token (create_session now sid hours token db).2).1 = some sid)
    ∧ ((∀ s ∈ db.sessions, s.token ≠ token) → now + hours * 3600 ≤ now2 →
        (verify_session now2 token (create_session now sid hours token db).2).1 = none) := by
  refine ⟨?_, ?_, ?_, ?_, ?_⟩
  · cases hf : db.sessions.find?
        (fun s => s.token == token && decide (now < s.expires_at)) <;>
      simp [verify_session, hf]
  · have hnone : (verify_session now token db).1 = none
        ↔ db.sessions.find?
            (fun s => s.token == token && decide (now < s.expires_at)) = none := by
      cases hf : db.sessions.find?
          (fun s => s.token == token && decide (now < s.expires_at)) <;>
        simp [verify_session, hf]
    rw [hnone, List.find?_eq_none]
    constructor
    · intro h s hs ht
      have := h s hs
      simp only [Bool.and_eq_true, beq_iff_eq, decide_eq_true_eq, not_and, not_lt] at this
      exact this ht
    · intro h s hs
      simp only [Bool.and_eq_true, beq_iff_eq, decide_eq_true_eq, not_and, not_lt]
      exact h s hs
  · intro sid2 h
    cases hf : db.sessions.find?
        (fun s => s.token == token && decide (now < s.expires_at)) with
    | none => simp [verify_session, hf] at h
    | some s =>
      have hmem := List.mem_of_find?_eq_some hf
      have hp := List.find?_some hf
      simp only [Bool.and_eq_true, beq_iff_eq, decide_eq_true_eq] at hp
      have hsid : s.store_id = sid2 := by
        simp [verify_session, hf] at h
        exact h
      exact ⟨s, hmem, hp.1, hp.2, hsid⟩
  · intro h hh
    have hfindsw : (db.sessions.filter (fun s => !decide (s.expires_at < now))).find?
        (fun s => s.token == token && decide (now < s.expires_at)) = none := by
      rw [List.find?_eq_none]
      intro x hx
      simp only [Bool.and_eq_true, beq_iff_eq, decide_eq_true_eq, not_and]
      intro hxt
      exact absurd hxt (h x (List.mem_of_mem_filter hx))
    have hsess : (create_session now sid hours token db).2.sessions
        = db.sessions.filter (fun s => !decide (s.expires_at < now))
          ++ [⟨token, sid, now + hours * 3600, now⟩] := rfl
    have hnew : (((⟨token, sid, now + hours * 3600, now⟩ : Session).token == token)
        && decide (now < (⟨token, sid, now + hours * 3600, now⟩ : Session).expires_at)) = true := by
      simp only [beq_self_eq_true, Bool.true_and, decide_eq_true_eq]
      omega
    have hfind2 : (create_session now sid hours token db).2.sessions.find?
        (fun s => s.token == token && decide (now < s.expires_at))
        = some ⟨token, sid, now + hours * 3600, now⟩ := by
      rw [hsess, List.find?_append, hfindsw]
      simp [List.find?_cons, hnew, hh]
    simp [verify_session, hfind2]
  · intro h hle
    have hfindsw : (db.sessions.filter (fun s => !decide (s.expires_at < now))).find?
        (fun s => s.token == token && decide (now2 < s.expires_at)) = none := by
      rw [List.find?_eq_none]
      intro x hx
      simp only [Bool.and_eq_true, beq_iff_eq, decide_eq_true_eq, not_and]
      intro hxt
      exact absurd hxt (h x (List.mem_of_mem_filter hx))
    have hsess : (create_session now sid hours token db).2.sessions
        = db.sessions.filter (fun s => !decide (s.expires_at < now))
          ++ [⟨token, sid, now + hours * 3600, now⟩] := rfl
    have hnew : (((⟨token, sid, now + hours * 3600, now⟩ : Session).token == token)
        && decide (now2 < (⟨token, sid, now + hours * 3600, now⟩ : Session).expires_at)) = false := by
      simp only [beq_self_eq_true, Bool.true_and, decide_eq_false_iff_not, not_lt]
      omega
    have hfind2 : (create_session now sid hours token db).2.sessions.find?
        (fun s => s.token == token && decide (now2 < s.expires_at)) = none := by
      rw [hsess, List.find?_append, hfindsw]
      simp [List.find?_cons, hnew, Nat.not_lt.mpr hle]
    simp [verify_session, hfind2]

/-- C6 witness: issuing a one-hour session for store "s" on a fresh
database, the token validates to "s" immediately and validates to none
once the clock reaches one hour after issue. -/
theorem verify_session_spec_w :
    (verify_session 0 "t" (create_session 0 "s" 1 "t" init_db).2).1 = some "s"
    ∧ (verify_session 3600 "t" (create_session 0 "s" 1 "t" init_db).2).1 = none :=
  ⟨(verify_session_spec 0 3600 "t" init_db "s" 1).2.2.2.1 (by decide) (by decide),
   (verify_session_spec 0 3600 "t" init_db "s" 1).2.2.2.2 (by decide) (by decide)⟩

/-- C7: frame property of `create_session` — the session table afterwards
is exactly the unexpired old rows (strictly-expired rows of any tenant
deleted, others kept) plus the one new row expiring ttl hours after now;
the credential table is untouched; exactly one `session_created`
AuditEntry is appended; the inserted token is returned. -/
theorem create_session_frame (now : Nat) (sid : String) (hours : Nat) (token : String)
    (db : DB) :
    ((create_session now sid hours token db).2.sessions
        = db.sessions.filter (fun s => decide (now ≤ s.expires_at))
          ++ [⟨token, sid, now + hours * 3600, now⟩])
    ∧ (∀ s ∈ db.sessions, now ≤ s.expires_at →
        s ∈ (create_session now sid hours token db).2.sessions)
    ∧ (∀ s ∈ db.sessions, s.expires_at < now →
        s ∉ (create_session now sid hours token db).2.sessions)
    ∧ (create_session now sid hours token db).2.store_auth = db.store_auth
    ∧ (create_session now sid hours token db).2.audit_log
        = db.audit_log ++ [⟨db.next_audit_id, sid, "session_created", now, none⟩]
    ∧ (create_session now sid hours token db).1 = token := by
  have hfe : ∀ x ∈ db.sessions,
      (!decide (x.expires_at < now)) = decide (now ≤ x.expires_at) := by
    intro x _
    rw [← decide_not, decide_eq_decide]
    omega
  have hsess : (create_session now sid hours token db).2.sessions
      = db.sessions.filter (fun s => !decide (s.expires_at < now))
        ++ [⟨token, sid, now + hours * 3600, now⟩] := rfl
  refine ⟨?_, ?_, ?_, rfl, rfl, rfl⟩
  · rw [hsess, List.filter_congr hfe]
  · intro s hs hle
    rw [hsess]
    refine List.mem_append_left _ (List.mem_filter.2 ⟨hs, ?_⟩)
    rw [hfe s hs]
    exact decide_eq_true hle
  · intro s hs hlt hmem
    rw [hsess] at hmem
    rcases List.mem_append.1 hmem with hm | hm
    · have := (List.mem_filter.1 hm).2
      simp only [Bool.not_eq_true', decide_eq_false_iff_not, not_lt] at this
      omega
    · have heq : s = ⟨token, sid, now + hours * 3600, now⟩ := by
        simpa using hm
      have : s.expires_at = now + hours * 3600 := by rw [heq]
      omega

/-- C7 witness: at time 10, issuing a session for "s3" on a table holding
one live row (expires 100) and one strictly-expired row (expires 2)
keeps the live row and deletes the expired one. -/
theorem create_session_frame_w :
    ((⟨"a", "s1", 100, 0⟩ : Session)
        ∈ (create_session 10 "s3" 1 "c" db_mix).2.sessions)
    ∧ ((⟨"b", "s2", 2, 0⟩ : Session)
        ∉ (create_session 10 "s3" 1 "c" db_mix).2.sessions) :=
  ⟨(create_session_frame 10 "s3" 1 "c" db_mix).2.1 ⟨"a", "s1", 100, 0⟩
      (by decide) (by decide),
   (create_session_frame 10 "s3" 1 "c" db_mix).2.2.1 ⟨"b", "s2", 2, 0⟩
      (by decide) (by decide)⟩

/-- Audit-log effect of one operation: either the log and the counter are
untouched, or exactly one row is appended, bearing the AUTOINCREMENT id
and the operation's clock, and the counter advances by one. -/
lemma step_audit_shape (op : Op) (db : DB) :
    ((step op db).audit_log = db.audit_log
      ∧ (step op db).next_audit_id = db.next_audit_id)
    ∨ (∃ sid a d, (step op db).audit_log
          = db.audit_log ++ [⟨db.next_audit_id, sid, a, op.time, d⟩]
        ∧ (step op db).next_audit_id = db.next_audit_id + 1) := by
  cases op with
  | createAuth now sid pw? gen salt =>
    refine Or.inr ⟨sid,
      if db.store_auth.any (fun r => r.store_id == sid) then "password_updated"
      else "store_created", none, ?_, ?_⟩ <;>
    · by_cases hex : db.store_auth.any (fun r => r.store_id == sid)
      · simp [step, create_store_auth, insert_audit, Op.time, hex]
      · have hex2 : db.store_auth.any (fun r => r.store_id == sid) = false := by
          simpa using hex
        simp [step, create_store_auth, insert_audit, Op.time, hex2]
  | verifyPw now sid pw =>
    cases hf : db.store_auth.find? (fun r => r.store_id == sid) with
    | none => exact Or.inl (by simp [step, verify_store_password, hf])
    | some r =>
      exact Or.inr ⟨sid, "login_attempt",
        some (checkpw (normalize_password pw) r.password_hash),
        by simp [step, verify_store_password, Op.time, hf, insert_audit],
        by simp [step, verify_store_password, Op.time, hf, insert_audit]⟩
  | createSess now sid hours tok =>
    exact Or.inr ⟨sid, "session_created", none, rfl, rfl⟩
  | verifySess now tok =>
    cases hf : db.sessions.find?
        (fun s => s.token == tok && decide (now < s.expires_at)) with
    | none => exact Or.inl (by simp [step, verify_session, hf])
    | some s => exact Or.inl (by simp [step, verify_session, hf])
  | deleteSess now tok =>
    cases hf : db.sessions.find? (fun s => s.token == tok) with
    | none => exact Or.inl (by simp [step, delete_session, hf])
    | some s =>
      exact Or.inr ⟨s.store_id, "logout", none,
        by simp [step, delete_session, Op.time, hf, insert_audit],
        by simp [step, delete_session, Op.time, hf, insert_audit]⟩
  | hasAuthQ now sid => exact Or.inl ⟨rfl, rfl⟩
  | listStoresQ now => exact Or.inl ⟨rfl, rfl⟩
  | getAuditQ now sid? limit => exact Or.inl ⟨rfl, rfl⟩

/-- One step preserves the strict-id discipline of the audit log. -/
lemma step_ids_ok (op : Op) (db : DB) (h : AuditIdsOk db) :
    AuditIdsOk (step op db) := by
  obtain ⟨hs, hb⟩ := h
  rcases step_audit_shape op db with ⟨h1, h2⟩ | ⟨sid, a, d, h1, h2⟩
  · exact ⟨by rw [h1]; exact hs, by rw [h2]; intro e he; rw [h1] at he; exact hb e he⟩
  · refine ⟨?_, ?_⟩
    · rw [h1, List.map_append]
      apply List.pairwise_append.2
      refine ⟨hs, List.pairwise_singleton _ _, ?_⟩
      intro x hx y hy
      simp only [List.map_cons, List.map_nil, List.mem_singleton] at hy
      subst hy
      obtain ⟨e0, he0, rfl⟩ := List.mem_map.1 hx
      exact hb e0 he0
    · intro e he
      rw [h2]
      rw [h1] at he
      rcases List.mem_append.1 he with hm | hm
      · exact Nat.lt_succ_of_lt (hb e hm)
      · have he2 : e = ⟨db.next_audit_id, sid, a, op.time, d⟩ := by simpa using hm
        rw [he2]
        exact Nat.lt_succ_self _

/-- One step at clock `op.time ≥ t` preserves the timestamp discipline,
advancing the reference clock to `op.time`. -/
lemma step_times_ok (op : Op) (db : DB) (t : Nat) (h : TimesOk db t)
    (hle : t ≤ op.time) : TimesOk (step op db) op.time := by
  obtain ⟨hs, hb⟩ := h
  rcases step_audit_shape op db with ⟨h1, _⟩ | ⟨sid, a, d, h1, _⟩
  · refine ⟨by rw [h1]; exact hs, ?_⟩
    intro e he
    rw [h1] at he
    exact le_trans (hb e he) hle
  · refine ⟨?_, ?_⟩
    · rw [h1, List.map_append]
      apply List.pairwise_append.2
      refine ⟨hs, List.pairwise_singleton _ _, ?_⟩
      intro x hx y hy
      simp only [List.map_cons, List.map_nil, List.mem_singleton] at hy
      subst hy
      obtain ⟨e0, he0, rfl⟩ := List.mem_map.1 hx
      exact le_trans (hb e0 he0) hle
    · intro e he
      rw [h1] at he
      rcases List.mem_append.1 he with hm | hm
      · exact le_trans (hb e hm) hle
      · have he2 : e = ⟨db.next_audit_id, sid, a, op.time, d⟩ := by simpa using hm
        rw [he2]

/-- C8: along any sequence of core operations with non-decreasing clocks,
audit entries are only ever appended (the old log is a prefix and every
new id exceeds every old id), ids stay strictly increasing in insertion
order, and timestamps stay non-decreasing. -/
theorem audit_log_invariant (ops : List Op) (db : DB) (t : Nat)
    (hids : AuditIdsOk db) (htimes : TimesOk db t) (hclock : ClockMono t ops) :
    AuditIdsOk (run ops db)
    ∧ TimesOk (run ops db) (lastClock t ops)
    ∧ ∃ tail, (run ops db).audit_log = db.audit_log ++ tail
        ∧ ∀ e ∈ tail, ∀ e0 ∈ db.audit_log, e0.id < e.id := by
  induction ops generalizing db t with
  | nil => exact ⟨hids, htimes, [], by simp [run], by simp⟩
  | cons op ops ih =>
    have hcm : t ≤ op.time ∧ List.Chain (fun a b => a ≤ b) op.time (ops.map Op.time) := by
      have hc := hclock
      rw [ClockMono, List.map_cons, List.chain_cons] at hc
      exact hc
    have hids2 := step_ids_ok op db hids
    have htimes2 := step_times_ok op db t htimes hcm.1
    have hrun : run (op :: ops) db = run ops (step op db) := rfl
    obtain ⟨ha, hb, tail2, htl2, hgt2⟩ := ih (step op db) op.time hids2 htimes2 hcm.2
    refine ⟨by rw [hrun]; exact ha, ?_, ?_⟩
    · have hl : lastClock t (op :: ops) = lastClock op.time ops := rfl
      rw [hrun, hl]
      exact hb
    · rcases step_audit_shape op db with ⟨h1, h2⟩ | ⟨sid, a, d, h1, h2⟩
      · refine ⟨tail2, ?_, ?_⟩
        · rw [hrun, htl2, h1]
        · intro e he e0 he0
          exact hgt2 e he e0 (by rw [h1]; exact he0)
      · refine ⟨⟨db.next_audit_id, sid, a, op.time, d⟩ :: tail2, ?_, ?_⟩
        · rw [hrun, htl2, h1, List.append_assoc]
          rfl
        · intro e he e0 he0
          rcases List.mem_cons.1 he with hm | hm
          · rw [hm]
            exact hids.2 e0 he0
          · exact hgt2 e hm e0
              (by rw [h1]; exact List.mem_append_left _ he0)

/-- C8 witness: running a session-create at time 1 and a revoke at time 2
from the fresh database satisfies all three audit-log conclusions. -/
theorem audit_log_invariant_w :
    AuditIdsOk (run [Op.createSess 1 "s" 1 "t", Op.deleteSess 2 "t"] init_db)
    ∧ TimesOk (run [Op.createSess 1 "s" 1 "t", Op.deleteSess 2 "t"] init_db)
        (lastClock 0 [Op.createSess 1 "s" 1 "t", Op.deleteSess 2 "t"])
    ∧ ∃ tail, (run [Op.createSess 1 "s" 1 "t", Op.deleteSess 2 "t"] init_db).audit_log
          = init_db.audit_log ++ tail
        ∧ ∀ e ∈ tail, ∀ e0 ∈ init_db.audit_log, e0.id < e.id :=
  audit_log_invariant [Op.createSess 1 "s" 1 "t", Op.deleteSess 2 "t"] init_db 0
    ⟨List.sorted_nil, fun e he => by simp [init_db] at he⟩
    ⟨List.sorted_nil, fun e he => by simp [init_db] at he⟩
    (List.Chain.cons (by decide) (List.Chain.cons (by decide) List.Chain.nil))

/-- After `delete_session token`, no session row carries the token
(whether the row was present and got deleted, or was absent already). -/
lemma no_token_delete (now : Nat) (token : String) (db : DB) :
    NoToken token (delete_session now token db) := by
  cases hf : db.sessions.find? (fun x => x.token == token) with
  | none =>
    intro s hs
    simp only [delete_session, hf] at hs
    have := List.find?_eq_none.1 hf s hs
    simpa using this
  | some r =>
    intro s hs
    simp only [delete_session, hf, insert_audit] at hs
    have := (List.mem_filter.1 hs).2
    simpa using this

/-- A step that is not a `create_session` issuing the token preserves the
absence of the token from the session table. -/
lemma no_token_step (op : Op) (token : String) (db : DB) (h : NoToken token db)
    (hop : issues_token op token = false) : NoToken token (step op db) := by
  cases op with
  | createAuth now sid pw? gen salt =>
    intro s hs
    by_cases hex : db.store_auth.any (fun r => r.store_id == sid)
    · simp only [step, create_store_auth, insert_audit, hex, if_true] at hs
      exact h s hs
    · have hex2 : db.store_auth.any (fun r => r.store_id == sid) = false := by
        simpa using hex
      simp only [step, create_store_auth, insert_audit, hex2, Bool.false_eq_true,
        if_false] at hs
      exact h s hs
  | verifyPw now sid pw =>
    intro s hs
    cases hf : db.store_auth.find? (fun r => r.store_id == sid) with
    | none =>
      simp only [step, verify_store_password, hf] at hs
      exact h s hs
    | some r =>
      simp only [step, verify_store_password, hf, insert_audit] at hs
      exact h s hs
  | createSess now sid hours tok =>
    intro s hs
    simp only [step, create_session, insert_audit] at hs
    rcases List.mem_append.1 hs with hm | hm
    · exact h s (List.mem_of_mem_filter hm)
    · have hse : s = ⟨tok, sid, now + hours * 3600, now⟩ := by simpa using hm
      rw [hse]
      simp only [issues_token] at hop
      simpa using hop
  | verifySess now tok =>
    intro s hs
    cases hf : db.sessions.find?
        (fun x => x.token == tok && decide (now < x.expires_at)) with
    | none =>
      simp only [step, verify_session, hf] at hs
      exact h s hs
    | some r =>
      simp only [step, verify_session, hf] at hs
      exact h s hs
  | deleteSess now tok =>
    intro s hs
    cases hf : db.sessions.find? (fun x => x.token == tok) with
    | none =>
      simp only [step, delete_session, hf] at hs
      exact h s hs
    | some r =>
      simp only [step, delete_session, hf, insert_audit] at hs
      exact h s (List.mem_of_mem_filter hs)
  | hasAuthQ now sid => exact h
  | listStoresQ now => exact h
  | getAuditQ now sid? limit => exact h

/-- Running any sequence of operations none of which issues the token
preserves its absence. -/
lemma no_token_run (ops : List Op) (token : String) (db : DB) (h : NoToken token db)
    (hop : ∀ op ∈ ops, issues_token op token = false) :
    NoToken token (run ops db) := by
  induction ops generalizing db with
  | nil => exact h
  | cons op ops ih =>
    have h1 := no_token_step op token db h (hop op (List.mem_cons_self op ops))
    exact ih (step op db) h1 (fun o ho => hop o (List.mem_cons_of_mem op ho))

/-- A token absent from the session table never validates. -/
lemma no_token_verify (now : Nat) (token : String) (db : DB) (h : NoToken token db) :
    (verify_session now token db).1 = none := by
  have hf : db.sessions.find?
      (fun s => s.token == token && decide (now < s.expires_at)) = none := by
    rw [List.find?_eq_none]
    intro x hx
    simp only [Bool.and_eq_true, beq_iff_eq, decide_eq_true_eq, not_and]
    intro hxt
    exact absurd hxt (h x hx)
  simp [verify_session, hf]

/-- C9: revocation is terminal — after `delete_session token`, every
later `verify_session token` returns none at every clock instant, across
any sequence of core operations that does not contain a `create_session`
issuing that very token value again. -/
theorem revoke_terminal (now now2 : Nat) (token : String) (db : DB) (ops : List Op)
    (hops : ∀ op ∈ ops, issues_token op token = false) :
    (verify_session now2 token (run ops (delete_session now token db))).1 = none :=
  no_token_verify now2 token _
    (no_token_run ops token _ (no_token_delete now token db) hops)

/-- C9 witness: after revoking "tok1" on the fixture, "tok1" no longer
validates even after another tenant's session is issued and a password
check runs. -/
theorem revoke_terminal_w :
    (verify_session 5 "tok1"
      (run [Op.createSess 1 "s2" 2 "u", Op.verifyPw 2 "s1" "x"]
        (delete_session 1 "tok1" db_exp))).1 = none :=
  revoke_terminal 1 5 "tok1" db_exp
    [Op.createSess 1 "s2" 2 "u", Op.verifyPw 2 "s1" "x"] (by decide)

end PackingAuth
